import Mathlib

/-!
Shallow embedding of the task-scheduling / progress / Gantt-projection core of
`src/app.py` (a Flask + SQLAlchemy application).

Modelling conventions:
* Dates (`datetime.date`) are modelled as integer day numbers `Date := Int`,
  with the epoch (day 0) chosen to fall on a Monday (e.g. 2024-01-01).
  `d + timedelta(days=k)` is integer addition `d + k`; the weekday of `d` is
  `d % 7` with `0 = Monday, …, 5 = Saturday, 6 = Sunday`.
* The SQLAlchemy session is modelled as an in-memory `Store` of record lists.
  Primary keys are unique in the database, so an update fetched with
  `db.session.get(Model, pk)` is modelled as a map over the list that rewrites
  the record(s) with that primary key.
* The relationship `Project.tasks` is declared with
  `order_by="Task.start_date"`, modelled by a stable insertion sort on
  `start_date`.
* Python's `/` on two ints is IEEE-754 binary64 true division and `* 100` a
  binary64 multiplication; both are modelled exactly (correctly rounded
  53-bit results represented as `mantissa * 2 ^ exponent` in integer
  arithmetic, normal range). `int(x)` on the non-negative result is
  truncation toward zero, i.e. the floor.
* JSON request dictionaries are modelled as records; `d.get(k)` of an optional
  key is an `Option`, and Python truthiness of an optional list
  (`if d.get('group_ids'):`) is "present and non-empty".
-/

namespace MarComect

/-- A calendar date as a day number; day 0 is a Monday. -/
abbrev Date := Int

/-- Saturday or Sunday, with day 0 = Monday. -/
def isWeekend (d : Date) : Bool := d % 7 == 5 || d % 7 == 6

/-- `Group` model: `id`, `name`. -/
structure Group where
  id : Nat
  name : String
deriving DecidableEq

/-- `User` model (only the fields the task routes read). -/
structure User where
  id : Nat
  username : String
deriving DecidableEq

/-- `TaskLink` model: child of `Task` (cascade "all, delete-orphan"). -/
structure TaskLink where
  id : Nat
  task_id : Nat
  url : String
  description : String
deriving DecidableEq

/-- `TaskFile` model: child of `Task` (cascade "all, delete-orphan"). -/
structure TaskFile where
  id : Nat
  task_id : Nat
  filename : String
  filepath : String
deriving DecidableEq

/-- `Task` model. `groups`/`assignees` are many-to-many links, modelled by the
lists of referenced ids. `duration_days` is a Python int (no sign constraint
in the schema or the routes). -/
structure Task where
  id : Nat
  project_id : Nat
  name : String
  start_date : Date
  duration_days : Int
  contractor_type : String
  is_completed : Bool
  comments : String
  group_ids : List Nat
  assignee_ids : List Nat
deriving DecidableEq

/-- `Project` model (the spec's campaign/sprint). -/
structure Project where
  id : Nat
  name : String
  client_id : Nat
  is_completed : Bool
  proposed_start_date : Option Date
deriving DecidableEq

/-- The database session: lists of records, plus the next autoincrement key. -/
structure Store where
  projects : List Project
  tasks : List Task
  links : List TaskLink
  files : List TaskFile
  groups : List Group
  users : List User
  next_id : Nat
deriving DecidableEq

/-- Insert a task into a list ordered by `start_date` (stable: an element is
placed before the first strictly-later start). -/
def insertByStart (t : Task) : List Task → List Task
  | [] => [t]
  | u :: us =>
    if u.start_date < t.start_date then u :: insertByStart t us
    else t :: u :: us

/-- Stable sort by `start_date`, modelling the relationship option
`order_by="Task.start_date"` on `Project.tasks`. -/
def sortByStart : List Task → List Task
  | [] => []
  | t :: ts => insertByStart t (sortByStart ts)

/-- `Project.tasks`: the tasks whose `project_id` is the project's primary
key, ordered by `Task.start_date`. -/
def projectTasks (s : Store) (pid : Nat) : List Task :=
  sortByStart (s.tasks.filter (fun t => t.project_id = pid))

/-- Count of completed tasks: `sum(1 for t in self.tasks if t.is_completed)`. -/
def completedCount (tasks : List Task) : Nat :=
  (tasks.filter (fun t => t.is_completed)).length

/-- Floor of log2, with explicit fuel (structural recursion; the fuel `n`
used by `natLog2` always suffices since the argument halves each step). -/
def log2fuel : Nat → Nat → Nat
  | 0, _ => 0
  | f + 1, n => if 2 ≤ n then log2fuel f (n / 2) + 1 else 0

/-- `⌊log2 n⌋` for `n ≥ 1` (and 0 at 0). -/
def natLog2 (n : Nat) : Nat := log2fuel n n

/-- Round `num / den` to the nearest integer, ties to even — the IEEE-754
default rounding, applied at an integer grid. -/
def rne (num den : Nat) : Nat :=
  let q := num / den
  let r := num % den
  if 2 * r < den then q
  else if den < 2 * r then q + 1
  else if q % 2 = 0 then q else q + 1

/-- Scale the fraction `num / den` into `[1, 2)` by doubling the smaller
side, tracking the binary exponent (the value `(num / den) * 2 ^ e` is
preserved); fuel-bounded structural recursion. -/
def normFracFuel : Nat → Nat → Nat → Int → Nat × Nat × Int
  | 0, num, den, e => (num, den, e)
  | f + 1, num, den, e =>
    if num < den then normFracFuel f (2 * num) den (e - 1)
    else if 2 * den ≤ num then normFracFuel f num (2 * den) (e + 1)
    else (num, den, e)

/-- IEEE-754 binary64 division `c / t` of two Python ints (Python true
division): the correctly rounded (nearest, ties even) 53-bit-mantissa
result, represented exactly as `mantissa * 2 ^ exponent`. Normal range only
(subnormals would need task counts beyond `2 ^ 1022`). -/
def fpDivNat (c t : Nat) : Nat × Int :=
  if c = 0 then (0, 0)
  else
    let r := normFracFuel (c + t + 128) c t 0
    let m0 := rne (r.1 * 2 ^ 52) r.2.1
    if m0 = 2 ^ 53 then (2 ^ 52, r.2.2 - 51) else (m0, r.2.2 - 52)

/-- IEEE-754 binary64 multiplication of the double `x` by the exact
constant 100: the exact integer product of the mantissa, re-rounded
(nearest, ties even) to 53 bits. -/
def fpMul100 (x : Nat × Int) : Nat × Int :=
  if x.1 = 0 then (0, 0)
  else
    let p := 100 * x.1
    let L := natLog2 p
    if L ≤ 52 then (p, x.2)
    else
      let m2 := rne p (2 ^ (L - 52))
      if m2 = 2 ^ 53 then (2 ^ 52, x.2 + (L - 52) + 1)
      else (m2, x.2 + (L - 52))

/-- Python `int(...)` on a non-negative double `m * 2 ^ e`: truncation
toward zero, which for a non-negative value is the floor. -/
def fpTruncNat (x : Nat × Int) : Nat :=
  if 0 ≤ x.2 then x.1 * 2 ^ x.2.toNat else x.1 / 2 ^ (-x.2).toNat

/-- `Project.completion_percentage`:
`total = len(self.tasks); if total == 0: return 0;
return int((sum(1 for t in self.tasks if t.is_completed) / total) * 100)`,
stated over the task collection. The division of the two ints is IEEE-754
binary64 true division and `* 100` a binary64 multiplication, modelled
exactly by `fpDivNat` and `fpMul100`; `int` truncates the non-negative
result. -/
def completion_percentage (tasks : List Task) : Int :=
  if tasks.length = 0 then 0
  else Int.ofNat (fpTruncNat (fpMul100 (fpDivNat (completedCount tasks)
    tasks.length)))

/-- One row of `api_gantt_data`:
`[str(t.id), str(t.name), t.contractor_type, start.isoformat(),
  end.isoformat(), None, percent, None]`. -/
structure GanttRow where
  taskId : String
  taskName : String
  resource : String
  startD : Date
  endD : Date
  durationField : Option Int
  percent : Int
  dependencies : Option String
deriving DecidableEq

/-- The row built for one task inside `api_gantt_data`:
`duration = t.duration_days if t.duration_days > 0 else 1;
 end_date = start_date + timedelta(days=duration);
 percent = 100 if t.is_completed else 0`. -/
def ganttRow (t : Task) : GanttRow :=
  let duration : Int := if t.duration_days > 0 then t.duration_days else 1
  { taskId := toString t.id
    taskName := t.name
    resource := t.contractor_type
    startD := t.start_date
    endD := t.start_date + duration
    durationField := none
    percent := if t.is_completed then 100 else 0
    dependencies := none }

/-- Route `api_gantt_data(source_type, source_id)`: for `source_type ==
"project"`, look the project up; when found, one row per task of `p.tasks`
(in that relationship's order); otherwise no rows. -/
def api_gantt_data (s : Store) (source_type : String) (source_id : Nat) :
    List GanttRow :=
  if source_type = "project" then
    match s.projects.find? (fun p => p.id = source_id) with
    | some _ => (projectTasks s source_id).map ganttRow
    | none => []
  else []

/-- One data row of `export_gantt_csv`:
`[t.id, t.name, t.start_date, t.start_date + timedelta(days=t.duration_days),
  t.duration_days, t.contractor_type, status, t.comments]`. -/
structure CsvRow where
  taskId : Nat
  taskName : String
  startD : Date
  endD : Date
  duration : Int
  contractor : String
  status : String
  comments : String
deriving DecidableEq

/-- The CSV row built for one task inside `export_gantt_csv`. -/
def csvRow (t : Task) : CsvRow :=
  { taskId := t.id
    taskName := t.name
    startD := t.start_date
    endD := t.start_date + t.duration_days
    duration := t.duration_days
    contractor := t.contractor_type
    status := if t.is_completed then "Completed" else "Active"
    comments := t.comments }

/-- Route `export_gantt_csv(source_type, source_id)`: same task selection as
`api_gantt_data`, one CSV row per task, raw `duration_days` used for the end
date. -/
def export_gantt_csv (s : Store) (source_type : String) (source_id : Nat) :
    List CsvRow :=
  if source_type = "project" then
    match s.projects.find? (fun p => p.id = source_id) with
    | some _ => (projectTasks s source_id).map csvRow
    | none => []
  else []

/-- Truthiness of `d.get(key)` for an optional id list: the key is present
and the list non-empty (`None` and `[]` are both falsy in Python). -/
def truthyList (o : Option (List Nat)) : Bool :=
  match o with
  | some (_ :: _) => true
  | _ => false

/-- `Group.query.filter(Group.id.in_(ids)).all()`, kept as the id list. -/
def resolveGroups (s : Store) (ids : List Nat) : List Nat :=
  (s.groups.filter (fun g => ids.contains g.id)).map (fun g => g.id)

/-- `User.query.filter(User.id.in_(ids)).all()`, kept as the id list. -/
def resolveUsers (s : Store) (ids : List Nat) : List Nat :=
  (s.users.filter (fun u => ids.contains u.id)).map (fun u => u.id)

/-- Request body of `/api/task/add`. The route reads exactly these keys;
`comments`, `group_ids`, `user_ids` via `d.get`. -/
structure AddRequest where
  project_id : Nat
  task_name : String
  start_date : Date
  duration_days : Int
  contractor_type : String
  comments : Option String
  group_ids : Option (List Nat)
  user_ids : Option (List Nat)
deriving DecidableEq

/-- Route `task_add_via_api`: builds the new `Task` from the request with no
validation of `duration_days`, appends it, commits, returns success. -/
def task_add_via_api (s : Store) (d : AddRequest) : Store × Bool :=
  let t : Task :=
    { id := s.next_id
      project_id := d.project_id
      name := d.task_name
      start_date := d.start_date
      duration_days := d.duration_days
      contractor_type := d.contractor_type
      is_completed := false
      comments := d.comments.getD ""
      group_ids :=
        if truthyList d.group_ids then resolveGroups s (d.group_ids.getD [])
        else []
      assignee_ids :=
        if truthyList d.user_ids then resolveUsers s (d.user_ids.getD [])
        else [] }
  ({ s with tasks := s.tasks ++ [t], next_id := s.next_id + 1 }, true)

/-- Request body of `/api/task/update`. The route reads only `task_id`,
`task_name`, `start_date`, `duration_days`, `contractor_type`, `comments`,
`group_ids`, `user_ids`; any other key the caller sends — such as a
predecessor set — is carried in the dictionary but never read, which the
`predecessor_ids` field records. -/
structure UpdateRequest where
  task_id : Nat
  task_name : String
  start_date : Date
  duration_days : Int
  contractor_type : String
  comments : Option String
  group_ids : Option (List Nat)
  user_ids : Option (List Nat)
  predecessor_ids : Option (List Nat)
deriving DecidableEq

/-- The field assignments of `task_update_via_api` applied to the fetched
task: every listed field is overwritten; `groups`/`assignees` are replaced by
the resolved lists when the request value is truthy, else by `[]`;
`is_completed`, `links`, `files` are untouched. -/
def applyUpdate (s : Store) (d : UpdateRequest) (t : Task) : Task :=
  { t with
    name := d.task_name
    start_date := d.start_date
    duration_days := d.duration_days
    contractor_type := d.contractor_type
    comments := d.comments.getD ""
    group_ids :=
      if truthyList d.group_ids then resolveGroups s (d.group_ids.getD [])
      else []
    assignee_ids :=
      if truthyList d.user_ids then resolveUsers s (d.user_ids.getD [])
      else [] }

/-- Route `task_update_via_api`: fetch by primary key; when found, overwrite
the fields and return success `true`; otherwise success `false`, store
unchanged. No cycle or duration check of any kind is performed. -/
def task_update_via_api (s : Store) (d : UpdateRequest) : Store × Bool :=
  if s.tasks.any (fun t => t.id = d.task_id) then
    ({ s with
        tasks := s.tasks.map (fun t =>
          if t.id = d.task_id then applyUpdate s d t else t) }, true)
  else (s, false)

/-- Route `task_complete_via_api`: fetch by primary key; when found, flip
`is_completed` and return success `true`; otherwise success `false`. -/
def task_complete_via_api (s : Store) (tid : Nat) : Store × Bool :=
  if s.tasks.any (fun t => t.id = tid) then
    ({ s with
        tasks := s.tasks.map (fun t =>
          if t.id = tid then { t with is_completed := !t.is_completed }
          else t) }, true)
  else (s, false)

/-- Route `delete_project_api`: fetch by primary key; when found, delete the
project; the relationship cascades `"all, delete-orphan"` on `Project.tasks`,
`Task.links` and `Task.files` delete every task owned by the project and
every link/file owned by those tasks. -/
def delete_project_api (s : Store) (pid : Nat) : Store × Bool :=
  match s.projects.find? (fun p => p.id = pid) with
  | some _ =>
    let deadIds := (s.tasks.filter (fun t => t.project_id = pid)).map
      (fun t => t.id)
    ({ s with
        projects := s.projects.filter (fun p => p.id ≠ pid)
        tasks := s.tasks.filter (fun t => t.project_id ≠ pid)
        links := s.links.filter (fun l => !(deadIds.contains l.task_id))
        files := s.files.filter (fun f => !(deadIds.contains f.task_id)) },
      true)
  | none => (s, false)

/-- Modelled from the spec: the first business day strictly after `d`
(`nextBusinessDay` applied to `d + 1`); absent from the code. -/
def nextBusinessDayAfter (d : Date) : Date :=
  if (d + 1) % 7 = 5 then d + 3
  else if (d + 1) % 7 = 6 then d + 2
  else d + 1

/-- Modelled from the spec: `addBusinessDays(from, n)` advances `from` by
exactly `n` business days, Saturday/Sunday excluded from the count,
returning the n-th business day strictly after `from`. This function is
absent from the code, which uses plain calendar-day addition; it is defined
here only to compare the code's end dates against the spec's claim. -/
def addBusinessDays (d : Date) : Nat → Date
  | 0 => d
  | n + 1 => addBusinessDays (nextBusinessDayAfter d) n

/-- A task's record with the completion flag blanked, to state that an
operation changes nothing but the completion flag. -/
def eraseCompleted (t : Task) : Task := { t with is_completed := false }

/-! Concrete fixtures used by the counterexamples and witnesses. -/

/-- Fixture: a task starting on day 0 (a Monday, e.g. 2024-01-01) with
duration 5 and no links, files, groups or assignees. -/
def task1 : Task :=
  { id := 1, project_id := 1, name := "A", start_date := 0, duration_days := 5,
    contractor_type := "Internal", is_completed := false, comments := "",
    group_ids := [], assignee_ids := [] }

/-- Fixture: a project with primary key 1. -/
def proj1 : Project :=
  { id := 1, name := "P", client_id := 1, is_completed := false,
    proposed_start_date := none }

/-- Fixture: a store holding `proj1` and its single task `task1`. -/
def store1 : Store :=
  { projects := [proj1], tasks := [task1], links := [], files := [],
    groups := [], users := [], next_id := 2 }

/-- Fixture: an update request for task 1 whose predecessor set names
task 1 itself. -/
def upd2 : UpdateRequest :=
  { task_id := 1, task_name := "A", start_date := 0, duration_days := 2,
    contractor_type := "Internal", comments := none, group_ids := none,
    user_ids := none, predecessor_ids := some [1] }

/-- Fixture: a sprint of three tasks of which exactly one is completed. -/
def sprint3 : List Task :=
  [{ task1 with id := 1, is_completed := true },
   { task1 with id := 2 }, { task1 with id := 3 }]

/-- Fixture: a sprint of one hundred tasks of which 29 are completed. -/
def sprint29 : List Task :=
  List.replicate 29 { task1 with is_completed := true } ++
    List.replicate 71 task1

/-- Fixture: a store holding `proj1` with no tasks at all. -/
def store4 : Store :=
  { projects := [proj1], tasks := [], links := [], files := [],
    groups := [], users := [], next_id := 1 }

/-- Fixture: an add request carrying duration 0. -/
def add5 : AddRequest :=
  { project_id := 1, task_name := "Z", start_date := 0, duration_days := 0,
    contractor_type := "Internal", comments := none, group_ids := none,
    user_ids := none }

/-- Fixture: task created first but starting later (day 10). -/
def task6a : Task := { task1 with id := 1, start_date := 10 }

/-- Fixture: task created second but starting earlier (day 3). -/
def task6b : Task := { task1 with id := 2, start_date := 3 }

/-- Fixture: a store whose task list (creation order) is `[task6a, task6b]`. -/
def store6 : Store := { store1 with tasks := [task6a, task6b] }

/-- Fixture: a link owned by task 1. -/
def link8 : TaskLink := { id := 1, task_id := 1, url := "u", description := "" }

/-- Fixture: a file owned by task 1. -/
def file8 : TaskFile :=
  { id := 1, task_id := 1, filename := "f", filepath := "p" }

/-- Fixture: a store with a project owning a task that owns a link and a
file. -/
def store8 : Store :=
  { projects := [proj1], tasks := [task1], links := [link8], files := [file8],
    groups := [], users := [], next_id := 2 }

/-- Fixture: task 1 with a non-empty group and assignee set. -/
def task10 : Task := { task1 with group_ids := [5], assignee_ids := [7] }

/-- Fixture: store holding `task10`, the referenced group and user. -/
def store10 : Store :=
  { store1 with
    tasks := [task10]
    groups := [⟨5, "G"⟩]
    users := [⟨7, "u"⟩] }

/-- Fixture: an update request for task 1 omitting `group_ids` while
carrying `user_ids = [7]` (a mixed request: only one key omitted). -/
def upd10 : UpdateRequest :=
  { task_id := 1, task_name := "A", start_date := 0, duration_days := 2,
    contractor_type := "Internal", comments := none, group_ids := none,
    user_ids := some [7], predecessor_ids := none }

/-! Helper lemmas about the insertion sort modelling `order_by`. -/

theorem insertByStart_perm (t : Task) (l : List Task) :
    (insertByStart t l).Perm (t :: l) := by
  induction l with
  | nil => simp [insertByStart]
  | cons u us ih =>
    by_cases h : u.start_date < t.start_date
    · simp only [insertByStart, if_pos h]
      exact (ih.cons u).trans (List.Perm.swap t u us)
    · simp [insertByStart, if_neg h]

theorem sortByStart_perm (l : List Task) : (sortByStart l).Perm l := by
  induction l with
  | nil => simp [sortByStart]
  | cons t ts ih =>
    exact (insertByStart_perm t (sortByStart ts)).trans (ih.cons t)

theorem pairwise_insertByStart (t : Task) (l : List Task)
    (hl : l.Pairwise fun a b => a.start_date ≤ b.start_date) :
    (insertByStart t l).Pairwise fun a b => a.start_date ≤ b.start_date := by
  induction l with
  | nil => simp [insertByStart]
  | cons u us ih =>
    rcases List.pairwise_cons.mp hl with ⟨hu, hus⟩
    by_cases h : u.start_date < t.start_date
    · simp only [insertByStart, if_pos h]
      refine List.pairwise_cons.mpr ⟨?_, ih hus⟩
      intro x hx
      rcases List.mem_cons.mp ((insertByStart_perm t us).mem_iff.mp hx) with
        rfl | hx
      · exact le_of_lt h
      · exact hu x hx
    · simp only [insertByStart, if_neg h]
      refine List.pairwise_cons.mpr ⟨?_, hl⟩
      intro x hx
      rcases List.mem_cons.mp hx with rfl | hx
      · exact not_lt.mp h
      · exact le_trans (not_lt.mp h) (hu x hx)

theorem sortByStart_pairwise (l : List Task) :
    (sortByStart l).Pairwise fun a b => a.start_date ≤ b.start_date := by
  induction l with
  | nil => simp [sortByStart]
  | cons t ts ih => exact pairwise_insertByStart t _ ih

theorem insertByStart_map (g : Task → Task)
    (hg : ∀ t, (g t).start_date = t.start_date) (t : Task) (l : List Task) :
    insertByStart (g t) (l.map g) = (insertByStart t l).map g := by
  induction l with
  | nil => rfl
  | cons u us ih =>
    simp only [List.map_cons, insertByStart, hg]
    by_cases h : u.start_date < t.start_date
    · simp [if_pos h, ih]
    · simp [if_neg h]

theorem sortByStart_map (g : Task → Task)
    (hg : ∀ t, (g t).start_date = t.start_date) (l : List Task) :
    sortByStart (l.map g) = (sortByStart l).map g := by
  induction l with
  | nil => rfl
  | cons t ts ih =>
    simp only [List.map_cons, sortByStart, ih, insertByStart_map g hg]

theorem filter_project_map (g : Task → Task)
    (hgp : ∀ t, (g t).project_id = t.project_id) (l : List Task) (pid : Nat) :
    (l.map g).filter (fun t => t.project_id = pid)
      = (l.filter (fun t => t.project_id = pid)).map g := by
  induction l with
  | nil => rfl
  | cons t ts ih =>
    simp only [List.map_cons, List.filter_cons, hgp]
    by_cases h : t.project_id = pid
    · simp [h, ih]
    · simp [h, ih]

/-- Mapping a start/project/duration-preserving function over the stored
tasks leaves the projected rows' dates unchanged. -/
theorem gantt_dates_map_invariant (s : Store) (g : Task → Task)
    (hgs : ∀ t, (g t).start_date = t.start_date)
    (hgp : ∀ t, (g t).project_id = t.project_id)
    (hgd : ∀ t, (g t).duration_days = t.duration_days)
    (st : String) (pid : Nat) :
    (api_gantt_data { s with tasks := s.tasks.map g } st pid).map
      (fun r => (r.startD, r.endD)) =
    (api_gantt_data s st pid).map (fun r => (r.startD, r.endD)) := by
  unfold api_gantt_data
  by_cases hst : st = "project"
  · rw [if_pos hst, if_pos hst]
    dsimp only
    cases hfind : s.projects.find? (fun p => p.id = pid) with
    | none => rfl
    | some q =>
      unfold projectTasks
      dsimp only
      rw [filter_project_map g hgp]
      rw [sortByStart_map g hgs]
      simp only [List.map_map]
      refine List.map_congr_left ?_
      intro t _
      simp [Function.comp, ganttRow, hgs, hgd]
  · rw [if_neg hst, if_neg hst]

/-- Every emitted Gantt row is the row of some stored task of the requested
project. -/
theorem gantt_row_source (s : Store) (st : String) (pid : Nat) (r : GanttRow)
    (hr : r ∈ api_gantt_data s st pid) :
    ∃ t ∈ s.tasks, t.project_id = pid ∧ r = ganttRow t := by
  unfold api_gantt_data at hr
  by_cases hst : st = "project"
  · rw [if_pos hst] at hr
    cases hfind : s.projects.find? (fun p => p.id = pid) with
    | none => rw [hfind] at hr; simp at hr
    | some p =>
      rw [hfind] at hr
      rcases List.mem_map.mp hr with ⟨t, ht, rfl⟩
      have ht' : t ∈ s.tasks.filter (fun t => t.project_id = pid) :=
        (sortByStart_perm _).mem_iff.mp ht
      rcases List.mem_filter.mp ht' with ⟨hmem, hpid⟩
      exact ⟨t, hmem, by simpa using hpid, rfl⟩
  · rw [if_neg hst] at hr
    simp at hr

/-- Round-to-nearest never exceeds an integer bound on the fraction:
`num / den ≤ N` (as `num ≤ N * den`) implies `rne num den ≤ N`. -/
theorem rne_le (num den N : Nat) (hden : 0 < den) (h : num ≤ N * den) :
    rne num den ≤ N := by
  unfold rne
  have hq : num / den ≤ N := by
    have h1 : num / den ≤ (N * den) / den := Nat.div_le_div_right h
    rw [Nat.mul_div_cancel N hden] at h1
    exact h1
  have hdm := Nat.div_add_mod num den
  by_cases h1 : 2 * (num % den) < den
  · rw [if_pos h1]
    exact hq
  · rw [if_neg h1]
    have hr : 0 < num % den := by omega
    have hlt : num / den < N := by
      rcases lt_or_eq_of_le hq with h2 | h2
      · exact h2
      · exfalso
        rw [h2] at hdm
        rw [Nat.mul_comm den N] at hdm
        omega
    by_cases h2 : den < 2 * (num % den)
    · rw [if_pos h2]
      omega
    · rw [if_neg h2]
      by_cases h3 : num / den % 2 = 0
      · rw [if_pos h3]
        omega
      · rw [if_neg h3]
        omega

theorem log2fuel_le : ∀ (f n : Nat), 0 < n → n ≤ f → 2 ^ log2fuel f n ≤ n := by
  intro f
  induction f with
  | zero =>
    intro n h1 h2
    omega
  | succ f ih =>
    intro n h1 h2
    by_cases h : 2 ≤ n
    · simp only [log2fuel, if_pos h]
      have hd : 0 < n / 2 := by omega
      have hf : n / 2 ≤ f := by omega
      have hih := ih (n / 2) hd hf
      rw [pow_succ]
      have h2n : 2 ^ log2fuel f (n / 2) * 2 ≤ (n / 2) * 2 :=
        Nat.mul_le_mul_right 2 hih
      omega
    · simp only [log2fuel, if_neg h]
      have hp : (2:Nat) ^ 0 = 1 := by norm_num
      rw [hp]
      omega

theorem log2fuel_lt : ∀ (f n : Nat), n ≤ f → n < 2 ^ (log2fuel f n + 1) := by
  intro f
  induction f with
  | zero =>
    intro n h2
    simp only [log2fuel]
    have hp : (2:Nat) ^ (0 + 1) = 2 := by norm_num
    rw [hp]
    omega
  | succ f ih =>
    intro n h2
    by_cases h : 2 ≤ n
    · simp only [log2fuel, if_pos h]
      have hf : n / 2 ≤ f := by omega
      have hih := ih (n / 2) hf
      rw [pow_succ]
      have h2n : (n / 2 + 1) * 2 ≤ 2 ^ (log2fuel f (n / 2) + 1) * 2 :=
        Nat.mul_le_mul_right 2 (by omega)
      omega
    · simp only [log2fuel, if_neg h]
      have hp : (2:Nat) ^ (0 + 1) = 2 := by norm_num
      rw [hp]
      omega

theorem natLog2_le (n : Nat) (h : 0 < n) : 2 ^ natLog2 n ≤ n :=
  log2fuel_le n n h le_rfl

theorem natLog2_lt (n : Nat) : n < 2 ^ (natLog2 n + 1) :=
  log2fuel_lt n n le_rfl

/-- The normalization loop preserves positivity of the denominator, keeps
the exponent non-positive, and keeps the represented value at most 1
(stated as `num ≤ den * 2 ^ (-e)`), given a fraction that starts at most 1. -/
theorem normFracFuel_inv : ∀ (f num den : Nat) (e : Int),
    0 < den → (num < 2 * den ∨ num = den) → e ≤ 0 →
    num ≤ den * 2 ^ (-e).toNat →
    0 < (normFracFuel f num den e).2.1 ∧
    (normFracFuel f num den e).2.2 ≤ 0 ∧
    (normFracFuel f num den e).1 ≤
      (normFracFuel f num den e).2.1 *
        2 ^ (-(normFracFuel f num den e).2.2).toNat := by
  intro f
  induction f with
  | zero =>
    intro num den e hden hq he hb
    exact ⟨hden, he, hb⟩
  | succ f ih =>
    intro num den e hden hq he hb
    by_cases h1 : num < den
    · simp only [normFracFuel, if_pos h1]
      apply ih
      · exact hden
      · left
        omega
      · omega
      · have hk : (-(e - 1)).toNat = (-e).toNat + 1 := by omega
        rw [hk, pow_succ]
        calc 2 * num ≤ 2 * (den * 2 ^ (-e).toNat) :=
              Nat.mul_le_mul_left 2 hb
          _ = den * (2 ^ (-e).toNat * 2) := by ring
    · by_cases h2 : 2 * den ≤ num
      · exfalso
        rcases hq with h3 | h3
        · omega
        · omega
      · simp only [normFracFuel, if_neg h1, if_neg h2]
        exact ⟨hden, he, hb⟩

/-- The binary64 quotient of `c ≤ t` (with `t > 0`) has a non-positive
exponent and value at most 1: `mantissa ≤ 2 ^ (-exponent)`. -/
theorem fpDivNat_bound (c t : Nat) (ht : 0 < t) (hct : c ≤ t) :
    (fpDivNat c t).2 ≤ 0 ∧
    (fpDivNat c t).1 ≤ 2 ^ (-(fpDivNat c t).2).toNat := by
  unfold fpDivNat
  by_cases hc : c = 0
  · rw [if_pos hc]
    constructor
    · exact le_refl 0
    · norm_num
  · rw [if_neg hc]
    have hq : c < 2 * t ∨ c = t := by omega
    have hb0 : c ≤ t * 2 ^ ((-(0:Int)).toNat) := by
      simpa using hct
    obtain ⟨hden, he, hb⟩ :=
      normFracFuel_inv (c + t + 128) c t 0 ht hq le_rfl hb0
    dsimp only
    set r := normFracFuel (c + t + 128) c t 0 with hr
    have hm0 : rne (r.1 * 2 ^ 52) r.2.1 ≤ 2 ^ (52 + (-r.2.2).toNat) := by
      apply rne_le _ _ _ hden
      calc r.1 * 2 ^ 52 ≤ r.2.1 * 2 ^ (-r.2.2).toNat * 2 ^ 52 :=
            Nat.mul_le_mul_right _ hb
        _ = 2 ^ (52 + (-r.2.2).toNat) * r.2.1 := by
            rw [pow_add]
            ring
    by_cases hnorm : rne (r.1 * 2 ^ 52) r.2.1 = 2 ^ 53
    · rw [if_pos hnorm]
      have hk1 : 1 ≤ (-r.2.2).toNat := by
        by_contra hcon
        have h0 : (-r.2.2).toNat = 0 := by omega
        rw [h0] at hm0
        rw [hnorm] at hm0
        norm_num at hm0
      refine ⟨by omega, ?_⟩
      have hkk : (-(r.2.2 - 51)).toNat = 51 + (-r.2.2).toNat := by omega
      show (2:Nat) ^ 52 ≤ 2 ^ (-(r.2.2 - 51)).toNat
      rw [hkk]
      exact Nat.pow_le_pow_right (by norm_num) (by omega)
    · rw [if_neg hnorm]
      refine ⟨by omega, ?_⟩
      have hkk : (-(r.2.2 - 52)).toNat = 52 + (-r.2.2).toNat := by omega
      show rne (r.1 * 2 ^ 52) r.2.1 ≤ 2 ^ (-(r.2.2 - 52)).toNat
      rw [hkk]
      exact hm0

/-- Truncating the binary64 product `x * 100` of a double `x ≤ 1` never
exceeds 100: rounding cannot cross the representable value 100. -/
theorem fpTrunc_mul100_le (x : Nat × Int) (hse : x.2 ≤ 0)
    (hm : x.1 ≤ 2 ^ (-x.2).toNat) :
    fpTruncNat (fpMul100 x) ≤ 100 := by
  by_cases h0 : x.1 = 0
  · unfold fpMul100
    rw [if_pos h0]
    unfold fpTruncNat
    norm_num
  · unfold fpMul100
    rw [if_neg h0]
    dsimp only
    set K := (-x.2).toNat with hK
    set p := 100 * x.1 with hp
    set L := natLog2 p with hL
    have hples : p ≤ 100 * 2 ^ K := Nat.mul_le_mul_left 100 hm
    have hppos : 0 < p := by
      rw [hp]
      exact Nat.mul_pos (by norm_num) (Nat.pos_of_ne_zero h0)
    have hLle : L ≤ K + 6 := by
      have h1 : 2 ^ L ≤ p := natLog2_le p hppos
      have hKpos : (0:Nat) < 2 ^ K := Nat.two_pow_pos K
      have h2 : p < 2 ^ (K + 7) := by
        have h3 : (2:Nat) ^ (K + 7) = 128 * 2 ^ K := by
          rw [pow_add]
          ring
        rw [h3]
        omega
      by_contra hcon
      have h4 : K + 7 ≤ L := by omega
      have h5 : (2:Nat) ^ (K + 7) ≤ 2 ^ L :=
        Nat.pow_le_pow_right (by norm_num) h4
      omega
    by_cases hL52 : L ≤ 52
    · rw [if_pos hL52]
      unfold fpTruncNat
      dsimp only
      by_cases hz : (0:Int) ≤ x.2
      · rw [if_pos hz]
        have hx2 : x.2 = 0 := le_antisymm hse hz
        have hKz : K = 0 := by omega
        have hx2t : x.2.toNat = 0 := by omega
        rw [hx2t]
        rw [hKz] at hples
        simp only [pow_zero, Nat.mul_one] at hples ⊢
        omega
      · rw [if_neg hz]
        have hdd : p / 2 ^ K ≤ (100 * 2 ^ K) / 2 ^ K :=
          Nat.div_le_div_right hples
        rw [Nat.mul_div_cancel 100 (Nat.two_pow_pos K)] at hdd
        exact hdd
    · rw [if_neg hL52]
      set sh := L - 52 with hsh
      have hshpos : 1 ≤ sh := by omega
      have hshK : sh + 46 ≤ K := by omega
      have hm2 : rne p (2 ^ sh) ≤ 100 * 2 ^ (K - sh) := by
        apply rne_le _ _ _ (Nat.two_pow_pos sh)
        calc p ≤ 100 * 2 ^ K := hples
          _ = 100 * 2 ^ (K - sh) * 2 ^ sh := by
              rw [Nat.mul_assoc, ← pow_add, Nat.sub_add_cancel (by omega)]
      by_cases hnorm : rne p (2 ^ sh) = 2 ^ 53
      · rw [if_pos hnorm]
        have h47 : 47 ≤ K - sh := by
          by_contra hcon
          have h1 : (2:Nat) ^ (K - sh) ≤ 2 ^ 46 :=
            Nat.pow_le_pow_right (by norm_num) (by omega)
          rw [hnorm] at hm2
          have h2 : (2:Nat) ^ 53 ≤ 100 * 2 ^ 46 := by
            calc (2:Nat) ^ 53 ≤ 100 * 2 ^ (K - sh) := hm2
              _ ≤ 100 * 2 ^ 46 := Nat.mul_le_mul_left 100 h1
          norm_num at h2
        unfold fpTruncNat
        dsimp only
        have hneg : ¬ (0:Int) ≤ x.2 + ((L : Int) - 52) + 1 := by omega
        rw [if_neg hneg]
        have hKK : (-(x.2 + ((L : Int) - 52) + 1)).toNat = K - sh - 1 := by
          omega
        rw [hKK]
        have h1 : (2:Nat) ^ 53 ≤ 100 * 2 ^ (K - sh) := hnorm ▸ hm2
        have h2 : (2:Nat) ^ (K - sh) = 2 ^ (K - sh - 1) * 2 := by
          rw [← pow_succ]
          congr 1
          omega
        have h3 : (2:Nat) ^ 53 = 2 ^ 52 * 2 := by norm_num
        have h4 : (2:Nat) ^ 52 ≤ 100 * 2 ^ (K - sh - 1) := by
          rw [h2, h3] at h1
          omega
        calc (2:Nat) ^ 52 / 2 ^ (K - sh - 1)
            ≤ (100 * 2 ^ (K - sh - 1)) / 2 ^ (K - sh - 1) :=
              Nat.div_le_div_right h4
          _ = 100 := Nat.mul_div_cancel 100 (Nat.two_pow_pos _)
      · rw [if_neg hnorm]
        unfold fpTruncNat
        dsimp only
        have hneg : ¬ (0:Int) ≤ x.2 + ((L : Int) - 52) := by omega
        rw [if_neg hneg]
        have hKK : (-(x.2 + ((L : Int) - 52))).toNat = K - sh := by omega
        rw [hKK]
        calc rne p (2 ^ sh) / 2 ^ (K - sh)
            ≤ (100 * 2 ^ (K - sh)) / 2 ^ (K - sh) :=
              Nat.div_le_div_right hm2
          _ = 100 := Nat.mul_div_cancel 100 (Nat.two_pow_pos _)

/-! The claims. -/

/-- C1 counterexample: `task1` has an explicit start on day 0 (a Monday, e.g.
2024-01-01), duration 5 and no predecessors; the Gantt projection and the CSV
export both produce end date day 5 (a Saturday), while
`addBusinessDays(0, 5) = 7` (the following Monday). The produced end is not
`addBusinessDays(S, D)` and lands on a weekend-counted day. -/
theorem C1_counterexample :
    store1.tasks.map (fun t => (t.start_date, t.duration_days)) = [(0, 5)] ∧
    (api_gantt_data store1 "project" 1).map (fun r => r.endD) = [5] ∧
    (export_gantt_csv store1 "project" 1).map (fun r => r.endD) = [5] ∧
    addBusinessDays 0 5 = 7 ∧
    isWeekend 5 = true := by decide

/-- C1 (amended): for every task with an explicit start date S and duration D,
the end date produced for the timeline/Gantt projection equals S plus D plain
calendar days (plus 1 day when D is not positive) — weekends are counted, so
the end may land on a Saturday or Sunday; no business-day arithmetic is
applied. -/
theorem C1_calendar_day_end (s : Store) (st : String) (pid : Nat)
    (r : GanttRow) (hr : r ∈ api_gantt_data s st pid) :
    ∃ t ∈ s.tasks, t.project_id = pid ∧ r.startD = t.start_date ∧
      r.endD = t.start_date +
        (if t.duration_days > 0 then t.duration_days else 1) := by
  rcases gantt_row_source s st pid r hr with ⟨t, hmem, hpid, rfl⟩
  exact ⟨t, hmem, hpid, rfl, rfl⟩

/-- C1 witness: the amended statement evaluated on `store1`. -/
theorem C1_calendar_day_end_witness :
    ∃ t ∈ store1.tasks, t.project_id = 1 ∧
      (ganttRow task1).startD = t.start_date ∧
      (ganttRow task1).endD = t.start_date +
        (if t.duration_days > 0 then t.duration_days else 1) :=
  C1_calendar_day_end store1 "project" 1 (ganttRow task1) (by decide)

/-- C2 counterexample: the save request `upd2` sets task 1's predecessor set
to `{1}` — the task itself. The update succeeds (`success = true`) instead of
failing with a `CycleDetected` condition. -/
theorem C2_counterexample :
    upd2.predecessor_ids = some [1] ∧ upd2.task_id = 1 ∧
    store1.tasks.map (fun t => t.id) = [1] ∧
    (task_update_via_api store1 upd2).2 = true := by decide

/-- C2 (amended): the data model stores no dependency edges and the update
route performs no cycle detection; a save request carrying any predecessor
set (including one naming the task itself) behaves exactly as the same
request without it — the predecessor field is ignored and the operation
succeeds. -/
theorem C2_predecessors_ignored (s : Store) (d : UpdateRequest)
    (p : Option (List Nat)) :
    task_update_via_api s { d with predecessor_ids := p } =
      task_update_via_api s d := rfl

/-- C3 counterexample: a sprint with 100 tasks of which 29 are completed.
The exact truncated formula gives `100 * 29 / 100 = 29`, but the code
computes `int((29 / 100) * 100)` in binary64 floats: `29 / 100` rounds to
just below 0.29, the product rounds to 28.999999999999996, and `int`
truncates to 28 — one below the claimed value. -/
theorem C3_counterexample :
    sprint29.length = 100 ∧ completedCount sprint29 = 29 ∧
    ((100 * completedCount sprint29) / sprint29.length : ℕ) = 29 ∧
    completion_percentage sprint29 = 28 := by decide

/-- C3 (amended): the aggregated progress is `int((completed / total) * 100)`
computed in IEEE-754 binary64 arithmetic, which can fall below the exact
truncation of `100 * completed / total` (29 of 100 yields 28); it is always
an integer in `[0, 100]`, is 0 for an empty collection, and is 33 for
3 tasks of which 1 is completed. -/
theorem C3_sprint_progress (tasks : List Task) :
    0 ≤ completion_percentage tasks ∧ completion_percentage tasks ≤ 100 ∧
    completion_percentage ([] : List Task) = 0 ∧
    completion_percentage sprint3 = 33 := by
  refine ⟨?_, ?_, rfl, by decide⟩
  · unfold completion_percentage
    by_cases h : tasks.length = 0
    · rw [if_pos h]
    · rw [if_neg h]
      exact Int.natCast_nonneg _
  · unfold completion_percentage
    by_cases h : tasks.length = 0
    · rw [if_pos h]
      norm_num
    · rw [if_neg h]
      have ht : 0 < tasks.length := Nat.pos_of_ne_zero h
      have hct : completedCount tasks ≤ tasks.length :=
        List.length_filter_le _ _
      obtain ⟨h1, h2⟩ := fpDivNat_bound _ _ ht hct
      have hb := fpTrunc_mul100_le
        (fpDivNat (completedCount tasks) tasks.length) h1 h2
      exact Int.ofNat_le.mpr hb

/-- C4 counterexample: `store4` holds project 1 with zero tasks; the Gantt
projection for it emits no row at all — there is no synthetic one-day row
anchored at today, so the claim's "exactly one row" fails. -/
theorem C4_counterexample :
    store4.projects.map (fun p => p.id) = [1] ∧ store4.tasks = [] ∧
    api_gantt_data store4 "project" 1 = [] := by decide

/-- C4 (amended): for a project with no tasks (hence no resolvable task
dates), the timeline projection emits zero rows — the empty list — rather
than a synthetic fallback row. -/
theorem C4_no_fallback_row (s : Store) (pid : Nat)
    (h : s.tasks.filter (fun t => t.project_id = pid) = []) :
    api_gantt_data s "project" pid = [] := by
  unfold api_gantt_data projectTasks
  rw [if_pos rfl, h]
  cases s.projects.find? (fun p => p.id = pid) <;> simp [sortByStart]

/-- C4 witness: the amended statement evaluated on `store4`. -/
theorem C4_no_fallback_row_witness :
    api_gantt_data store4 "project" 1 = [] :=
  C4_no_fallback_row store4 1 (by decide)

/-- C5 counterexample: the add request `add5` carries duration 0; the
operation succeeds and stores a task whose duration is 0, so non-positive
durations are not rejected and stored durations are not always ≥ 1. -/
theorem C5_counterexample :
    add5.duration_days = 0 ∧
    (task_add_via_api store4 add5).2 = true ∧
    (task_add_via_api store4 add5).1.tasks.map (fun t => t.duration_days) =
      [0] := by decide

/-- C5 (amended): neither task-save route validates the duration: the add
route always succeeds and appends a task storing exactly the requested
duration (any integer, including 0 and negatives), and the update route
overwrites the stored duration with exactly the requested one. -/
theorem C5_no_duration_validation (s : Store) (d : AddRequest)
    (u : UpdateRequest) :
    (task_add_via_api s d).2 = true ∧
    (task_add_via_api s d).1.tasks.map (fun t => t.duration_days) =
      s.tasks.map (fun t => t.duration_days) ++ [d.duration_days] ∧
    (task_update_via_api s u).1.tasks.map (fun t => t.duration_days) =
      s.tasks.map (fun t =>
        if t.id = u.task_id then u.duration_days else t.duration_days) := by
  refine ⟨rfl, by simp [task_add_via_api], ?_⟩
  unfold task_update_via_api
  by_cases h : s.tasks.any (fun t => t.id = u.task_id)
  · rw [if_pos h]
    simp only [List.map_map]
    refine List.map_congr_left ?_
    intro t _
    by_cases hid : t.id = u.task_id <;> simp [hid, applyUpdate]
  · rw [if_neg h]
    have hno : ∀ t ∈ s.tasks, ¬ t.id = u.task_id := by
      intro t ht hcontra
      exact h (List.any_eq_true.mpr ⟨t, ht, by simp [hcontra]⟩)
    refine (List.map_congr_left ?_).symm
    intro t ht
    simp [hno t ht]

/-- C6 counterexample: `store6`'s task list in creation order is
`[task 1 (start 10), task 2 (start 3)]`, but the projection emits task 2's
row first — the rows are date-sorted, not in creation order. -/
theorem C6_counterexample :
    store6.tasks.map (fun t => t.id) = [1, 2] ∧
    (api_gantt_data store6 "project" 1).map (fun r => r.taskId) =
      ["2", "1"] := by decide

/-- C6 (amended): the timeline projection emits the project's rows sorted by
task start date (the collection is declared `order_by="Task.start_date"`);
the emitted rows are a permutation of the per-task rows taken in the
underlying creation order. -/
theorem C6_rows_sorted_by_start (s : Store) (pid : Nat)
    (hp : ∃ p ∈ s.projects, p.id = pid) :
    ((api_gantt_data s "project" pid).Pairwise fun a b =>
      a.startD ≤ b.startD) ∧
    (api_gantt_data s "project" pid).Perm
      ((s.tasks.filter (fun t => t.project_id = pid)).map ganttRow) := by
  rcases hp with ⟨p, hmem, hid⟩
  have hfind : (s.projects.find? (fun p => p.id = pid)).isSome := by
    rw [List.find?_isSome]
    exact ⟨p, hmem, by simp [hid]⟩
  rcases Option.isSome_iff_exists.mp hfind with ⟨q, hq⟩
  unfold api_gantt_data projectTasks
  rw [if_pos rfl, hq]
  constructor
  · rw [List.pairwise_map]
    exact sortByStart_pairwise _
  · exact (sortByStart_perm _).map ganttRow

/-- C6 witness: the amended statement evaluated on `store6`. -/
theorem C6_rows_sorted_by_start_witness :
    ((api_gantt_data store6 "project" 1).Pairwise fun a b =>
      a.startD ≤ b.startD) ∧
    (api_gantt_data store6 "project" 1).Perm
      ((store6.tasks.filter (fun t => t.project_id = 1)).map ganttRow) :=
  C6_rows_sorted_by_start store6 1 (by decide)

/-- C7: toggling a task's completion flag changes only completion flags:
every task's record is unchanged apart from `is_completed` (in particular
start date and duration are unchanged), and the start/end dates of every row
of the timeline projection are unchanged. -/
theorem C7_toggle_completion_frame (s : Store) (tid : Nat) (st : String)
    (pid : Nat) :
    ((task_complete_via_api s tid).1.tasks.map eraseCompleted =
      s.tasks.map eraseCompleted) ∧
    ((api_gantt_data (task_complete_via_api s tid).1 st pid).map
        (fun r => (r.startD, r.endD)) =
      (api_gantt_data s st pid).map (fun r => (r.startD, r.endD))) := by
  by_cases h : s.tasks.any (fun t => t.id = tid)
  case neg =>
    have hs : task_complete_via_api s tid = (s, false) := by
      unfold task_complete_via_api
      rw [if_neg h]
    rw [hs]
    exact ⟨rfl, rfl⟩
  case pos =>
    have hstate : (task_complete_via_api s tid).1 =
        { s with tasks := s.tasks.map (fun t =>
            if t.id = tid then { t with is_completed := !t.is_completed }
            else t) } := by
      unfold task_complete_via_api
      rw [if_pos h]
    constructor
    · rw [hstate]
      dsimp only
      simp only [List.map_map]
      refine List.map_congr_left ?_
      intro t _
      by_cases hid : t.id = tid
      · simp [Function.comp, hid, eraseCompleted]
      · simp [Function.comp, hid]
    · rw [hstate]
      exact gantt_dates_map_invariant s
        (fun t => if t.id = tid then { t with is_completed := !t.is_completed }
          else t)
        (fun t => by
          by_cases hid : t.id = tid
          · simp [hid]
          · simp [hid])
        (fun t => by
          by_cases hid : t.id = tid
          · simp [hid]
          · simp [hid])
        (fun t => by
          by_cases hid : t.id = tid
          · simp [hid]
          · simp [hid])
        st pid

/-- C8: deleting a project cascades: afterwards no project with that key
remains, no task owned by it remains, and (when links and files referenced
existing tasks) every remaining link and file still references a remaining
task — no orphaned child records. -/
theorem C8_cascade_delete (s : Store) (pid : Nat)
    (hp : ∃ p ∈ s.projects, p.id = pid)
    (hl : ∀ l ∈ s.links, ∃ t ∈ s.tasks, t.id = l.task_id)
    (hf : ∀ f ∈ s.files, ∃ t ∈ s.tasks, t.id = f.task_id) :
    ((delete_project_api s pid).2 = true) ∧
    (∀ p ∈ (delete_project_api s pid).1.projects, p.id ≠ pid) ∧
    (∀ t ∈ (delete_project_api s pid).1.tasks, t.project_id ≠ pid) ∧
    (∀ l ∈ (delete_project_api s pid).1.links,
      ∃ t ∈ (delete_project_api s pid).1.tasks, t.id = l.task_id) ∧
    (∀ f ∈ (delete_project_api s pid).1.files,
      ∃ t ∈ (delete_project_api s pid).1.tasks, t.id = f.task_id) := by
  rcases hp with ⟨p, hmem, hid⟩
  have hfind : (s.projects.find? (fun p => p.id = pid)).isSome := by
    rw [List.find?_isSome]
    exact ⟨p, hmem, by simp [hid]⟩
  rcases Option.isSome_iff_exists.mp hfind with ⟨q, hq⟩
  unfold delete_project_api
  rw [hq]
  dsimp only
  refine ⟨rfl, ?_, ?_, ?_, ?_⟩
  · intro x hx
    have := (List.mem_filter.mp hx).2
    simpa using this
  · intro t ht
    have := (List.mem_filter.mp ht).2
    simpa using this
  · intro l hlmem
    rcases List.mem_filter.mp hlmem with ⟨hl0, hdead⟩
    rcases hl l hl0 with ⟨t, htmem, htid⟩
    have htp : ¬ t.project_id = pid := by
      intro hcontra
      have hmm : t.id ∈ (s.tasks.filter
          (fun t => t.project_id = pid)).map (fun t => t.id) :=
        List.mem_map.mpr ⟨t, List.mem_filter.mpr ⟨htmem, by simp [hcontra]⟩,
          rfl⟩
      rw [htid] at hmm
      have hc : (List.map (fun t => t.id) (List.filter
          (fun t => decide (t.project_id = pid)) s.tasks)).contains
          l.task_id = true := List.elem_eq_true_of_mem hmm
      rw [hc] at hdead
      simp at hdead
    exact ⟨t, List.mem_filter.mpr ⟨htmem, by simp [htp]⟩, htid⟩
  · intro f hfmem
    rcases List.mem_filter.mp hfmem with ⟨hf0, hdead⟩
    rcases hf f hf0 with ⟨t, htmem, htid⟩
    have htp : ¬ t.project_id = pid := by
      intro hcontra
      have hmm : t.id ∈ (s.tasks.filter
          (fun t => t.project_id = pid)).map (fun t => t.id) :=
        List.mem_map.mpr ⟨t, List.mem_filter.mpr ⟨htmem, by simp [hcontra]⟩,
          rfl⟩
      rw [htid] at hmm
      have hc : (List.map (fun t => t.id) (List.filter
          (fun t => decide (t.project_id = pid)) s.tasks)).contains
          f.task_id = true := List.elem_eq_true_of_mem hmm
      rw [hc] at hdead
      simp at hdead
    exact ⟨t, List.mem_filter.mpr ⟨htmem, by simp [htp]⟩, htid⟩

/-- C8 witness: the statement evaluated on `store8` (a project owning a task
that owns a link and a file). -/
theorem C8_cascade_delete_witness :
    ((delete_project_api store8 1).2 = true) ∧
    (∀ p ∈ (delete_project_api store8 1).1.projects, p.id ≠ 1) ∧
    (∀ t ∈ (delete_project_api store8 1).1.tasks, t.project_id ≠ 1) ∧
    (∀ l ∈ (delete_project_api store8 1).1.links,
      ∃ t ∈ (delete_project_api store8 1).1.tasks, t.id = l.task_id) ∧
    (∀ f ∈ (delete_project_api store8 1).1.files,
      ∃ t ∈ (delete_project_api store8 1).1.tasks, t.id = f.task_id) :=
  C8_cascade_delete store8 1 (by decide) (by decide) (by decide)

/-- C9: every emitted Gantt row has end strictly later than start (a stored
duration ≤ 0 is treated as one day in that projection), and for any task the
Gantt end agrees with the CSV export's end exactly when the stored duration
is ≥ 1. -/
theorem C9_projection_end_bounds (s : Store) (st : String) (pid : Nat)
    (r : GanttRow) (hr : r ∈ api_gantt_data s st pid) (t : Task) :
    r.startD < r.endD ∧
    ((ganttRow t).endD = (csvRow t).endD ↔ 1 ≤ t.duration_days) := by
  constructor
  · rcases gantt_row_source s st pid r hr with ⟨u, _, _, rfl⟩
    show u.start_date < u.start_date +
      (if u.duration_days > 0 then u.duration_days else 1)
    by_cases hd : u.duration_days > 0
    · simp only [if_pos hd]
      linarith
    · simp only [if_neg hd]
      linarith
  · show (t.start_date + (if t.duration_days > 0 then t.duration_days
      else 1)) = t.start_date + t.duration_days ↔ 1 ≤ t.duration_days
    by_cases hd : t.duration_days > 0
    · simp only [if_pos hd]
      constructor
      · intro _
        linarith
      · intro _
        trivial
    · simp only [if_neg hd]
      refine iff_of_false ?_ ?_
      · intro he
        have h1 : (1 : Int) = t.duration_days := add_left_cancel he
        linarith
      · intro h1
        exact hd (by linarith)

/-- C9 witness: the statement evaluated on `store1` and `task1`. -/
theorem C9_projection_end_bounds_witness :
    (ganttRow task1).startD < (ganttRow task1).endD ∧
    ((ganttRow task1).endD = (csvRow task1).endD ↔ 1 ≤ task1.duration_days) :=
  C9_projection_end_bounds store1 "project" 1 (ganttRow task1) (by decide)
    task1

/-- C10: the update route replaces the group/assignee sets independently:
a request that omits `group_ids` leaves the updated task with an empty
group set (whatever `user_ids` carries), and a request that omits
`user_ids` leaves the updated task with an empty assignee set (whatever
`group_ids` carries), regardless of what was stored before. -/
theorem C10_omitted_sets_cleared (s : Store) (d : UpdateRequest)
    (t' : Task) (ht' : t' ∈ (task_update_via_api s d).1.tasks)
    (hid : t'.id = d.task_id) :
    (d.group_ids = none → t'.group_ids = []) ∧
    (d.user_ids = none → t'.assignee_ids = []) := by
  unfold task_update_via_api at ht'
  by_cases h : s.tasks.any (fun t => t.id = d.task_id)
  · rw [if_pos h] at ht'
    simp only at ht'
    rcases List.mem_map.mp ht' with ⟨t, htmem, rfl⟩
    by_cases hmatch : t.id = d.task_id
    · simp only [if_pos hmatch]
      constructor
      · intro hg
        simp [applyUpdate, hg, truthyList]
      · intro hu
        simp [applyUpdate, hu, truthyList]
    · rw [if_neg hmatch] at hid
      exact absurd hid hmatch
  · rw [if_neg h] at ht'
    exact absurd (List.any_eq_true.mpr ⟨t', ht', by simp [hid]⟩) h

/-- C10 witness: updating `task10` (stored groups `[5]`, assignees `[7]`)
with the mixed request `upd10`, which omits only `group_ids`, clears the
group set; the assignee conjunct's antecedent records that `user_ids` was
carried. -/
theorem C10_omitted_sets_cleared_witness :
    (upd10.group_ids = none →
      (applyUpdate store10 upd10 task10).group_ids = []) ∧
    (upd10.user_ids = none →
      (applyUpdate store10 upd10 task10).assignee_ids = []) :=
  C10_omitted_sets_cleared store10 upd10
    (applyUpdate store10 upd10 task10) (by decide) (by decide)

end MarComect
